import Mathlib

/-!
# A shallow embedding of `src/scanner.py`

The program is a threaded TCP port scanner: a fixed pool of worker threads
pulls ports from a shared FIFO queue, probes each port with `scan_port`,
prints one console status line per port, optionally appends one CSV row per
port, and marks the queue item done.  The coordinator (`main`) enqueues all
ports, waits for the queue to drain (`q.join()`), pushes one stop signal per
worker, waits for a second drain, closes the CSV file and prints a summary.

The embedding below models the pure parts of the program directly as Lean
functions, and the concurrent part as a small-step state machine driven by an
explicit schedule (a list of choices naming who moves next), so that theorems
can quantify over every interleaving and every worker count.
-/

namespace Scanner

/-- The `COMMON_PORTS` dictionary of `scanner.py`: port number to service name,
in source order. -/
def COMMON_PORTS : List (Nat × String) :=
  [(20, "FTP-data"), (21, "FTP-control"), (22, "SSH"), (23, "Telnet"),
   (25, "SMTP"), (53, "DNS"), (67, "DHCP"), (69, "TFTP"), (80, "HTTP"),
   (110, "POP3"), (123, "NTP"), (139, "NetBIOS"), (143, "IMAP"),
   (161, "SNMP"), (194, "IRC"), (443, "HTTPS"), (445, "SMB"),
   (587, "SMTP (submission)"), (631, "IPP"), (993, "IMAPS"), (995, "POP3S"),
   (1433, "MSSQL"), (1521, "Oracle"), (2049, "NFS"), (3306, "MySQL"),
   (3389, "RDP"), (5432, "PostgreSQL"), (5900, "VNC"), (6379, "Redis"),
   (8080, "HTTP-alt")]

/-- `COMMON_PORTS.get(port, "")` as used in `worker`. -/
def common_ports_get (p : Nat) : String := (COMMON_PORTS.lookup p).getD ""

/-- Python's stable ascending `sorted` on a list of naturals
(insertion sort). -/
def insertSorted (x : Nat) : List Nat → List Nat
  | [] => [x]
  | y :: ys => if x ≤ y then x :: y :: ys else y :: insertSorted x ys

/-- `sorted(l)` for a list of naturals. -/
def pySorted (l : List Nat) : List Nat := l.foldr insertSorted []

/-- `sorted(COMMON_PORTS.keys())`, the default port list of `main`. -/
def sorted_common_ports : List Nat := pySorted (COMMON_PORTS.map Prod.fst)

/-! ## The probe (`scan_port`) -/

/-- What `s.connect_ex((host, port))` can do: return an error code
(`0` on success, an `errno` such as `ECONNREFUSED` otherwise), or raise an
exception (as DNS resolution failure does). -/
inductive ConnectExResult
  | code (errno : Nat)
  | raised
deriving DecidableEq

/-- The `try` body of `scan_port`: `s.connect_ex((host, port)) == 0`, which
may raise. -/
def connect_body : ConnectExResult → Except Unit Bool
  | .code e => .ok (e == 0)
  | .raised => .error ()

/-- `scan_port`: runs the try body, the `except Exception` arm maps a raised
exception to `False`; the second component records that the `finally` branch
closed the socket on that path. -/
def scan_port (r : ConnectExResult) : Bool × Bool :=
  match connect_body r with
  | .ok b => (b, true)
  | .error _ => (false, true)

/-- The probe failure classes named by the spec, plus success. -/
inductive ProbeOutcome
  | success | refused | timedOut | unreachable | dnsFailure
deriving DecidableEq

/-- How each outcome surfaces from `connect_ex`: refusal, timeout and
unreachability as nonzero error codes (`ECONNREFUSED`, `ETIMEDOUT`,
`EHOSTUNREACH`), DNS resolution failure as a raised exception. -/
def connect_ex_of : ProbeOutcome → ConnectExResult
  | .success => .code 0
  | .refused => .code 111
  | .timedOut => .code 110
  | .unreachable => .code 113
  | .dnsFailure => .raised

/-! ## Timestamps and CSV rows -/

/-- A wall-clock instant as the Python `datetime` fields used here. -/
structure Timestamp where
  year : Nat
  month : Nat
  day : Nat
  hour : Nat
  minute : Nat
  second : Nat
  microsecond : Nat
deriving DecidableEq

/-- Two-digit zero padding. -/
def pad2 (n : Nat) : String := if n < 10 then "0" ++ toString n else toString n

/-- Four-digit zero padding. -/
def pad4 (n : Nat) : String :=
  if n < 10 then "000" ++ toString n
  else if n < 100 then "00" ++ toString n
  else if n < 1000 then "0" ++ toString n
  else toString n

/-- Models the Python standard-library call
`datetime.now().isoformat(timespec="seconds")` used in `worker`:
the ISO-8601 string `YYYY-MM-DDTHH:MM:SS`, truncated to whole seconds. -/
def isoformat_seconds (t : Timestamp) : String :=
  pad4 t.year ++ "-" ++ pad2 t.month ++ "-" ++ pad2 t.day ++ "T" ++
  pad2 t.hour ++ ":" ++ pad2 t.minute ++ ":" ++ pad2 t.second

/-- The per-port record a worker produces: port, probe outcome, service name
and the timestamp taken inside `worker`. -/
structure ProbeResult where
  port : Nat
  isOpen : Bool
  service : String
  ts : Timestamp
deriving DecidableEq

/-- The row `worker` writes with `csv_writer.writerow`:
`[timestamp, host, port, service, status]`. -/
def csv_row (host : String) (r : ProbeResult) : List String :=
  [isoformat_seconds r.ts, host, toString r.port, r.service,
   if r.isOpen then "OPEN" else "CLOSED"]

/-- The header row `main` writes before starting the workers. -/
def csvHeader : List String := ["timestamp", "host", "port", "service", "status"]

/-! ## Port-range parsing (the `mode == "r"` branch of `main`) -/

/-- Python's `split("-")` on the character list of the input: splits at every
dash, keeping empty pieces. -/
def splitDash : List Char → List (List Char)
  | [] => [[]]
  | c :: rest =>
    if c = '-' then [] :: splitDash rest
    else match splitDash rest with
      | [] => [[c]]
      | hd :: tl => (c :: hd) :: tl

/-- Python's `int(s)` on a piece of the range input (for the nonnegative
digit strings relevant here): the digit value, or the `ValueError` path as
`none`. -/
def charsToNat? (cs : List Char) : Option Nat :=
  if cs = [] then none
  else if cs.all Char.isDigit then
    some (cs.foldl (fun n c => n * 10 + (c.toNat - 48)) 0)
  else none

/-- The range branch of `main`: split on `-`, parse both integers, and check
`start_port < 1 or end_port > 65535 or start_port > end_port`; `none` models
the `ValueError` path of the `try`. -/
def parse_range (s : String) : Option (Nat × Nat) :=
  match splitDash s.data with
  | [a, b] =>
    match charsToNat? a, charsToNat? b with
    | some st, some en =>
      if st < 1 ∨ 65535 < en ∨ en < st then none else some (st, en)
    | _, _ => none
  | _ => none

/-- `list(range(start_port, end_port + 1))`. -/
def range_ports (st en : Nat) : List Nat := List.range' st (en + 1 - st)

/-- The port list `main` scans in range mode: the parsed range, or — on any
parse or validation failure — the printed fallback
`sorted(COMMON_PORTS.keys())`. -/
def ports_for_range (s : String) : List Nat :=
  match parse_range s with
  | some (st, en) => range_ports st en
  | none => sorted_common_ports

/-! ## The final summary of `main` -/

/-- Python's `str` of a list of ints, as printed in the summary line. -/
def py_list_str (l : List Nat) : String :=
  "[" ++ String.intercalate ", " (l.map toString) ++ "]"

/-- `sorted(set(open_ports))`. -/
def sorted_set (l : List Nat) : List Nat := pySorted l.dedup

/-- The open-port part of the final summary: `"\nScan complete."` followed by
either the sorted deduplicated open ports or the no-open-ports line. -/
def open_ports_summary (op : List Nat) : List String :=
  "\nScan complete." ::
    (if op = [] then ["No open ports found."]
     else ["Open ports: " ++ py_list_str (sorted_set op)])

/-- The trailing summary line about the CSV file. -/
def csv_note (save_csv : Bool) (csv_name : String) : List String :=
  if save_csv then ["Saved results to: " ++ csv_name]
  else ["No CSV file was written."]

/-- Everything `main` prints after the drain (lines 169-177 of the source). -/
def summary_lines (op : List Nat) (save_csv : Bool) (csv_name : String) :
    List String :=
  open_ports_summary op ++ csv_note save_csv csv_name

/-- The banner `main` prints before scanning (line 129) — the one place the
total port count appears. -/
def pre_scan_banner (host : String) (nPorts threads : Nat) : String :=
  "\nScanning " ++ host ++ " " ++ toString nPorts ++ " ports with " ++
    toString threads ++ " threads (timeout 0.5s)\n"

/-! ## The concurrent scan as a schedule-driven state machine -/

/-- A queue entry: a port, or the reserved `stop_signal` poison value. -/
inductive WorkItem
  | portItem (p : Nat)
  | stopSignal
deriving DecidableEq

/-- Where a single worker thread is in its loop.  `popped p`: it has taken
port `p` off the queue; `printed r`: it has probed and printed the console
line (and recorded the open port); `dispatched`: it has also done the CSV
write and is about to call `q.task_done()`; `terminated`: it popped the stop
signal, acknowledged it and left the loop. -/
inductive WorkerPhase
  | idle
  | popped (p : Nat)
  | printed (r : ProbeResult)
  | dispatched
  | terminated
deriving DecidableEq

/-- Where the coordinator (`main`) is: pushing the remaining ports, blocked in
the first `q.join()`, pushing the remaining stop signals, blocked in the
second `q.join()`, or finished (CSV closed, summary printed). -/
inductive CoordPhase
  | enqueuing (remaining : List Nat)
  | drainWork
  | sendingPoison (k : Nat)
  | drainPoison
  | complete
deriving DecidableEq

/-- File operations performed on the CSV file. -/
inductive FileOp
  | openFile (name : String)
  | writeRow (row : List String)
  | closeFile
deriving DecidableEq

/-- The configuration `main` hands to the scan: target host, port list,
thread count, whether to save CSV and under which name, plus two oracles
abstracting the environment: `net t p` is what `connect_ex` does for the
probe of port `p` issued at logical time `t`, and `clockTs t` is what
`datetime.now()` reads then. -/
structure ScanConfig where
  host : String
  ports : List Nat
  numWorkers : Nat
  save_csv : Bool
  csv_name : String
  net : Nat → Nat → ConnectExResult
  clockTs : Nat → Timestamp

/-- The shared state of the scan: the queue contents, the queue's
pushed-and-not-yet-done counter (`unfinished_tasks`), each worker's phase,
the coordinator's phase, the console dispatch trace (`results`), the
`open_ports` list, the CSV file-operation trace, a logical clock, and the
summary once printed. -/
structure ScanState where
  queue : List WorkItem
  unfinished : Nat
  workers : List WorkerPhase
  coord : CoordPhase
  results : List ProbeResult
  openPorts : List Nat
  fileOps : List FileOp
  clock : Nat
  summary : Option (List String)
deriving DecidableEq

/-- The state right after `main` opened the CSV file (if requested), wrote the
header and started the (still idle) worker threads. -/
def initState (cfg : ScanConfig) : ScanState :=
  { queue := [], unfinished := 0,
    workers := List.replicate cfg.numWorkers .idle,
    coord := .enqueuing cfg.ports,
    results := [], openPorts := [],
    fileOps :=
      if cfg.save_csv then [.openFile cfg.csv_name, .writeRow csvHeader]
      else [],
    clock := 0, summary := none }

/-- One step of the coordinator: push the next port; fall through to the first
`q.join()`, which returns only once `unfinished = 0`; push the stop signals;
block in the second `q.join()`; then close the CSV file and print the
summary. -/
def coordStep (cfg : ScanConfig) (s : ScanState) : ScanState :=
  match s.coord with
  | .enqueuing [] => { s with coord := .drainWork }
  | .enqueuing (p :: rest) =>
      { s with queue := s.queue ++ [.portItem p],
               unfinished := s.unfinished + 1,
               coord := .enqueuing rest }
  | .drainWork =>
      if s.unfinished = 0 then { s with coord := .sendingPoison cfg.numWorkers }
      else s
  | .sendingPoison 0 => { s with coord := .drainPoison }
  | .sendingPoison (k + 1) =>
      { s with queue := s.queue ++ [.stopSignal],
               unfinished := s.unfinished + 1,
               coord := .sendingPoison k }
  | .drainPoison =>
      if s.unfinished = 0 then
        { s with coord := .complete,
                 fileOps := s.fileOps ++
                   if cfg.save_csv then [.closeFile] else [],
                 summary := some
                   (summary_lines s.openPorts cfg.save_csv cfg.csv_name) }
      else s
  | .complete => s

/-- One step of worker `i`, following the loop body of `worker`: a blocked or
missing worker does nothing; an idle worker pops the queue head (a stop signal
is acknowledged with `task_done` and ends the loop); a worker holding port `p`
probes it and prints the status line under `print_lock` (appending to
`open_ports` when open); it then does the guarded CSV write under `csv_lock`;
and finally calls `q.task_done()` and loops. -/
def workerStepAt (cfg : ScanConfig) (s : ScanState) (i : Nat) : ScanState :=
  match s.workers[i]? with
  | none => s
  | some .idle =>
      match s.queue with
      | [] => s
      | .stopSignal :: rest =>
          { s with queue := rest, unfinished := s.unfinished - 1,
                   workers := s.workers.set i .terminated }
      | .portItem p :: rest =>
          { s with queue := rest, workers := s.workers.set i (.popped p) }
  | some (.popped p) =>
      let isOpen := (scan_port (cfg.net s.clock p)).1
      let r : ProbeResult := ⟨p, isOpen, common_ports_get p, cfg.clockTs s.clock⟩
      { s with results := s.results ++ [r],
               openPorts := s.openPorts ++ if isOpen then [p] else [],
               workers := s.workers.set i (.printed r),
               clock := s.clock + 1 }
  | some (.printed r) =>
      { s with fileOps := s.fileOps ++
                 if cfg.save_csv then [.writeRow (csv_row cfg.host r)] else [],
               workers := s.workers.set i .dispatched }
  | some .dispatched =>
      { s with unfinished := s.unfinished - 1,
               workers := s.workers.set i .idle }
  | some .terminated => s

/-- A scheduling choice: the coordinator moves, or worker `i` moves. -/
inductive Choice
  | coordC
  | workerC (i : Nat)
deriving DecidableEq

/-- One scheduled step. -/
def step (cfg : ScanConfig) (s : ScanState) (c : Choice) : ScanState :=
  match c with
  | .coordC => coordStep cfg s
  | .workerC i => workerStepAt cfg s i

/-- The scan under a given schedule. -/
def run (cfg : ScanConfig) (sched : List Choice) : ScanState :=
  sched.foldl (step cfg) (initState cfg)

/-! ## Observation functions on states -/

/-- The ports still sitting in the queue. -/
def queuePorts (q : List WorkItem) : List Nat :=
  q.filterMap fun w => match w with | .portItem p => some p | .stopSignal => none

/-- Whether a queue entry is the poison value. -/
def isStop : WorkItem → Bool
  | .stopSignal => true
  | .portItem _ => false

/-- How many stop signals sit in the queue. -/
def queueStops (q : List WorkItem) : Nat := q.countP isStop

/-- The port a worker has popped but not yet dispatched to the console. -/
def inflightOf : WorkerPhase → List Nat
  | .popped p => [p]
  | _ => []

/-- A worker holding a popped-but-not-yet-marked-done item. -/
def isBusy : WorkerPhase → Bool
  | .popped _ => true
  | .printed _ => true
  | .dispatched => true
  | _ => false

/-- A worker that has acknowledged the poison value and left its loop. -/
def isTerminated : WorkerPhase → Bool
  | .terminated => true
  | _ => false

/-- The CSV row a worker has printed but not yet written. -/
def pendingCsvOf (host : String) : WorkerPhase → List (List String)
  | .printed r => [csv_row host r]
  | _ => []

/-- The rows written to the CSV file, in write order. -/
def csvWrites (ops : List FileOp) : List (List String) :=
  ops.filterMap fun op => match op with | .writeRow row => some row | _ => none

/-- How many stop signals the coordinator has pushed so far. -/
def stopsPushed (cfg : ScanConfig) : CoordPhase → Nat
  | .enqueuing _ => 0
  | .drainWork => 0
  | .sendingPoison k => cfg.numWorkers - k
  | .drainPoison => cfg.numWorkers
  | .complete => cfg.numWorkers

/-- Phases strictly after the first `q.join()` returned. -/
def pastDrainWork : CoordPhase → Bool
  | .enqueuing _ => false
  | .drainWork => false
  | _ => true

/-! ## List helper lemmas -/

lemma idx_some_mem {α : Type} {l : List α} {i : Nat} {a : α}
    (h : l[i]? = some a) : a ∈ l := by
  induction l generalizing i with
  | nil => simp at h
  | cons b t ih =>
    cases i with
    | zero => simp_all
    | succ n =>
      simp only [List.getElem?_cons_succ] at h
      exact List.mem_cons_of_mem _ (ih h)

lemma single_worker {α : Type} {ws : List α} {i : Nat} {w : α}
    (hl : ws.length = 1) (hw : ws[i]? = some w) : ws = [w] ∧ i = 0 := by
  obtain ⟨a, rfl⟩ := List.length_eq_one.mp hl
  cases i with
  | zero => simp_all
  | succ n => simp at hw

lemma count_flatMap_set {α β : Type} [BEq β] (f : α → List β)
    {l : List α} {i : Nat} {b : α} (a : α) (h : l[i]? = some b) (x : β) :
    ((l.set i a).flatMap f).count x + (f b).count x =
      (l.flatMap f).count x + (f a).count x := by
  induction l generalizing i with
  | nil => simp at h
  | cons c t ih =>
    cases i with
    | zero =>
      simp only [List.getElem?_cons_zero, Option.some.injEq] at h
      subst h
      simp only [List.set_cons_zero, List.flatMap_cons, List.count_append]
      omega
    | succ n =>
      simp only [List.getElem?_cons_succ] at h
      simp only [List.set_cons_succ, List.flatMap_cons, List.count_append]
      have := ih h
      omega

lemma countP_set {α : Type} (p : α → Bool) {l : List α} {i : Nat} {b : α}
    (a : α) (h : l[i]? = some b) :
    (l.set i a).countP p + (if p b then 1 else 0) =
      l.countP p + (if p a then 1 else 0) := by
  induction l generalizing i with
  | nil => simp at h
  | cons c t ih =>
    cases i with
    | zero =>
      simp only [List.getElem?_cons_zero, Option.some.injEq] at h
      subst h
      simp only [List.set_cons_zero, List.countP_cons]
      omega
    | succ n =>
      simp only [List.getElem?_cons_succ] at h
      simp only [List.set_cons_succ, List.countP_cons]
      have := ih h
      omega

lemma flatMap_eq_nil_of {α β : Type} {l : List α} {f : α → List β}
    (h : ∀ w ∈ l, f w = []) : l.flatMap f = [] := by
  induction l with
  | nil => simp
  | cons c t ih =>
    simp only [List.flatMap_cons, h c (by simp), List.nil_append]
    exact ih fun w hw => h w (by simp [hw])

lemma busy_all_false {ws : List WorkerPhase} (h : ws.countP isBusy = 0) :
    ∀ w ∈ ws, isBusy w = false := by
  intro w hw
  by_contra hb
  have : 0 < ws.countP isBusy :=
    List.countP_pos_iff.mpr ⟨w, hw, by simpa using hb⟩
  omega

lemma inflightOf_eq_nil {w : WorkerPhase} (h : isBusy w = false) :
    inflightOf w = [] := by
  cases w <;> simp_all [isBusy, inflightOf]

lemma pendingCsvOf_eq_nil {host : String} {w : WorkerPhase}
    (h : isBusy w = false) : pendingCsvOf host w = [] := by
  cases w <;> simp_all [isBusy, pendingCsvOf]

lemma all_terminated {ws : List WorkerPhase}
    (h : ws.countP isTerminated = ws.length) :
    ∀ w ∈ ws, w = .terminated := by
  have h2 := List.countP_eq_length.mp h
  intro w hw
  have h3 := h2 w hw
  cases w <;> simp_all [isTerminated]

/-! ## The inductive invariant -/

/-- What has been pushed so far: while enqueuing, the front part of the
configured port list already consumed; afterwards all of it. -/
def pushedMatch (cfg : ScanConfig) (c : CoordPhase) (pre : List Nat) : Prop :=
  match c with
  | .enqueuing rest => cfg.ports = pre ++ rest
  | _ => pre = cfg.ports

/-- The inductive invariant of the scan state machine.  `acct` is the
conservation law for real work: every pushed port is in the queue, in flight
at a worker, or already dispatched — counted with multiplicity — and with a
single worker the dispatch order is exactly the push order.  `unf` says the
queue's `unfinished_tasks` counter counts queued items plus busy workers;
`stops` that pushed stop signals are either queued or were consumed by a
worker that is now terminated. -/
structure Inv (cfg : ScanConfig) (s : ScanState) : Prop where
  wlen : s.workers.length = cfg.numWorkers
  acct : ∃ pre : List Nat, pushedMatch cfg s.coord pre ∧
    (∀ x : Nat, pre.count x =
      (queuePorts s.queue).count x + (s.workers.flatMap inflightOf).count x +
        (s.results.map ProbeResult.port).count x) ∧
    (cfg.numWorkers = 1 →
      pre = s.results.map ProbeResult.port ++ s.workers.flatMap inflightOf ++
        queuePorts s.queue)
  unf : s.unfinished = s.queue.length + s.workers.countP isBusy
  stops : stopsPushed cfg s.coord =
    queueStops s.queue + s.workers.countP isTerminated
  poisonBound : ∀ k, s.coord = .sendingPoison k → k ≤ cfg.numWorkers
  drained : pastDrainWork s.coord = true →
    queuePorts s.queue = [] ∧ s.workers.countP isBusy = 0
  allDone : s.coord = .complete →
    s.queue = [] ∧ s.workers.countP isTerminated = cfg.numWorkers
  csvTr : cfg.save_csv = true →
    ∃ rows, csvWrites s.fileOps = csvHeader :: rows ∧
      ∀ row : List String, rows.count row +
          (s.workers.flatMap (pendingCsvOf cfg.host)).count row =
        (s.results.map (csv_row cfg.host)).count row
  noCsv : cfg.save_csv = false → s.fileOps = []
  svc : ∀ r ∈ s.results, r.service = common_ports_get r.port
  sumSet : s.coord = .complete →
    s.summary = some (summary_lines s.openPorts cfg.save_csv cfg.csv_name)

lemma inv_init (cfg : ScanConfig) : Inv cfg (initState cfg) := by
  have hrep : ∀ w ∈ List.replicate cfg.numWorkers WorkerPhase.idle,
      w = WorkerPhase.idle := fun w hw => List.eq_of_mem_replicate hw
  have hfl : (List.replicate cfg.numWorkers WorkerPhase.idle).flatMap
      inflightOf = [] :=
    flatMap_eq_nil_of fun w hw => by rw [hrep w hw]; rfl
  have hfp : (List.replicate cfg.numWorkers WorkerPhase.idle).flatMap
      (pendingCsvOf cfg.host) = [] :=
    flatMap_eq_nil_of fun w hw => by rw [hrep w hw]; rfl
  have hcb : (List.replicate cfg.numWorkers WorkerPhase.idle).countP
      isBusy = 0 :=
    List.countP_eq_zero.mpr fun w hw => by rw [hrep w hw]; simp [isBusy]
  have hct : (List.replicate cfg.numWorkers WorkerPhase.idle).countP
      isTerminated = 0 :=
    List.countP_eq_zero.mpr fun w hw => by rw [hrep w hw]; simp [isTerminated]
  refine ⟨?_, ⟨[], ?_, ?_, ?_⟩, ?_, ?_, ?_, ?_, ?_, ?_, ?_, ?_, ?_⟩
  · simp [initState]
  · simp [initState, pushedMatch]
  · intro x
    simp [initState, queuePorts, hfl]
  · intro _
    simp [initState, queuePorts, hfl]
  · simp [initState, hcb]
  · simp [initState, stopsPushed, queueStops, hct]
  · intro k hk; simp [initState] at hk
  · intro hp; simp [initState, pastDrainWork] at hp
  · intro hc; simp [initState] at hc
  · intro hs
    refine ⟨[], ?_, ?_⟩
    · simp [initState, hs, csvWrites]
    · intro row
      simp [initState, hfp]
  · intro hs; simp [initState, hs]
  · intro r hr; simp [initState] at hr
  · intro hc; simp [initState] at hc


lemma inv_coordStep (cfg : ScanConfig) (s : ScanState) (h : Inv cfg s) :
    Inv cfg (coordStep cfg s) := by
  have h0 := h
  obtain ⟨wlen, ⟨pre, hpre, hcount, hlist⟩, unf, stops, pb, drained, allDone,
    csvTr, noCsv, svc, sumSet⟩ := h
  cases hc : s.coord with
  | enqueuing rem =>
    rw [hc] at hpre stops
    cases rem with
    | nil =>
      simp only [coordStep, hc]
      refine ⟨wlen, ⟨pre, ?_, hcount, hlist⟩, unf, ?_, ?_, ?_, ?_,
        csvTr, noCsv, svc, ?_⟩
      · simp only [pushedMatch] at hpre ⊢
        simp only [List.append_nil] at hpre
        exact hpre.symm
      · simpa [stopsPushed] using stops
      · intro k hk; simp at hk
      · intro hp; simp [pastDrainWork] at hp
      · intro hcm; simp at hcm
      · intro hcm; simp at hcm
    | cons p rest =>
      simp only [coordStep, hc]
      refine ⟨wlen, ⟨pre ++ [p], ?_, ?_, ?_⟩, ?_, ?_, ?_, ?_, ?_,
        csvTr, noCsv, svc, ?_⟩
      · simp only [pushedMatch] at hpre ⊢
        simp [hpre]
      · intro x
        have h1 := hcount x
        dsimp only
        simp only [queuePorts] at h1 ⊢
        simp only [List.filterMap_append, List.filterMap_cons,
          List.filterMap_nil, List.count_append, List.count_cons,
          List.count_nil]
        omega
      · intro h1
        have h2 := hlist h1
        dsimp only
        simp only [queuePorts] at h2 ⊢
        simp only [List.filterMap_append, List.filterMap_cons,
          List.filterMap_nil]
        rw [h2]
        simp [List.append_assoc]
      · dsimp only
        simp only [List.length_append, List.length_cons, List.length_nil]
        omega
      · dsimp only
        simp only [stopsPushed] at stops ⊢
        simp [queueStops, List.countP_append, List.countP_cons, isStop]
          at stops ⊢
        omega
      · intro k hk; simp at hk
      · intro hp; simp [pastDrainWork] at hp
      · intro hcm; simp at hcm
      · intro hcm; simp at hcm
  | drainWork =>
    by_cases hu : s.unfinished = 0
    · rw [hc] at hpre stops
      simp only [coordStep, hc, if_pos hu]
      have hq0 : s.queue = [] := by
        rw [unf] at hu
        exact List.length_eq_zero.mp (by omega)
      have hb0 : s.workers.countP isBusy = 0 := by
        rw [unf] at hu; omega
      refine ⟨wlen, ⟨pre, ?_, hcount, hlist⟩, unf, ?_, ?_, ?_, ?_,
        csvTr, noCsv, svc, ?_⟩
      · simpa [pushedMatch] using hpre
      · dsimp only
        simp only [stopsPushed, Nat.sub_self]
        simpa [stopsPushed] using stops
      · intro k hk
        cases hk
        exact Nat.le_refl _
      · intro _
        exact ⟨by simp [hq0, queuePorts], hb0⟩
      · intro hcm; simp at hcm
      · intro hcm; simp at hcm
    · simp only [coordStep, hc, if_neg hu]
      exact h0
  | sendingPoison k =>
    rw [hc] at hpre stops
    have hdr := drained (by rw [hc]; rfl)
    have hkb : k ≤ cfg.numWorkers := pb k hc
    cases k with
    | zero =>
      simp only [coordStep, hc]
      refine ⟨wlen, ⟨pre, ?_, hcount, hlist⟩, unf, ?_, ?_, ?_, ?_,
        csvTr, noCsv, svc, ?_⟩
      · simpa [pushedMatch] using hpre
      · simpa [stopsPushed] using stops
      · intro k2 hk2; simp at hk2
      · intro _; exact hdr
      · intro hcm; simp at hcm
      · intro hcm; simp at hcm
    | succ k' =>
      simp only [coordStep, hc]
      refine ⟨wlen, ⟨pre, ?_, ?_, ?_⟩, ?_, ?_, ?_, ?_, ?_,
        csvTr, noCsv, svc, ?_⟩
      · simpa [pushedMatch] using hpre
      · intro x
        have h1 := hcount x
        dsimp only
        simp only [queuePorts] at h1 ⊢
        simp only [List.filterMap_append, List.filterMap_cons,
          List.filterMap_nil, List.count_append, List.count_nil]
        omega
      · intro h1
        have h2 := hlist h1
        dsimp only
        simp only [queuePorts] at h2 ⊢
        simp only [List.filterMap_append, List.filterMap_cons,
          List.filterMap_nil, List.append_nil]
        exact h2
      · dsimp only
        simp only [List.length_append, List.length_cons, List.length_nil]
        omega
      · dsimp only
        simp only [stopsPushed] at stops ⊢
        simp [queueStops, List.countP_append, List.countP_cons, isStop]
          at stops ⊢
        omega
      · intro k2 hk2
        cases hk2
        omega
      · intro _
        refine ⟨?_, hdr.2⟩
        dsimp only
        simp only [queuePorts, List.filterMap_append, List.filterMap_cons,
          List.filterMap_nil, List.append_nil]
        simpa [queuePorts] using hdr.1
      · intro hcm; simp at hcm
      · intro hcm; simp at hcm
  | drainPoison =>
    by_cases hu : s.unfinished = 0
    · rw [hc] at hpre stops
      have hdr := drained (by rw [hc]; rfl)
      simp only [coordStep, hc, if_pos hu]
      have hq0 : s.queue = [] := by
        rw [unf] at hu
        exact List.length_eq_zero.mp (by omega)
      refine ⟨wlen, ⟨pre, ?_, hcount, hlist⟩, unf, ?_, ?_, ?_, ?_, ?_, ?_,
        svc, ?_⟩
      · simpa [pushedMatch] using hpre
      · simpa [stopsPushed] using stops
      · intro k hk; simp at hk
      · intro _; exact hdr
      · intro _
        refine ⟨hq0, ?_⟩
        dsimp only
        simp only [stopsPushed] at stops
        rw [hq0] at stops
        simp only [queueStops, List.countP_nil] at stops
        omega
      · intro hs
        obtain ⟨rows, hrows, hcnt⟩ := csvTr hs
        refine ⟨rows, ?_, hcnt⟩
        dsimp only
        simp only [hs, if_true, csvWrites, List.filterMap_append] at hrows ⊢
        simp only [List.filterMap_cons, List.filterMap_nil, List.append_nil]
        simpa [csvWrites] using hrows
      · intro hs
        have h2 := noCsv hs
        dsimp only
        simp [hs, h2]
      · intro _; rfl
    · simp only [coordStep, hc, if_neg hu]
      exact h0
  | complete =>
    simp only [coordStep, hc]
    exact h0


lemma inv_workerStepAt (cfg : ScanConfig) (s : ScanState) (i : Nat)
    (h : Inv cfg s) : Inv cfg (workerStepAt cfg s i) := by
  have h0 := h
  obtain ⟨wlen, ⟨pre, hpre, hcount, hlist⟩, unf, stops, pb, drained, allDone,
    csvTr, noCsv, svc, sumSet⟩ := h
  cases hw : s.workers[i]? with
  | none => simp only [workerStepAt, hw]; exact h0
  | some ph =>
    cases ph with
    | terminated => simp only [workerStepAt, hw]; exact h0
    | idle =>
      cases hq : s.queue with
      | nil => simp only [workerStepAt, hw, hq]; exact h0
      | cons it rest =>
        rw [hq] at hcount hlist unf stops drained allDone
        cases it with
        | stopSignal =>
          simp only [workerStepAt, hw, hq]
          have h3 := countP_set isBusy WorkerPhase.terminated hw
          simp [isBusy] at h3
          have h4 := countP_set isTerminated WorkerPhase.terminated hw
          simp [isTerminated] at h4
          refine ⟨?_, ⟨pre, hpre, ?_, ?_⟩, ?_, ?_, pb, ?_, ?_, ?_,
            noCsv, svc, ?_⟩
          · dsimp only
            simp only [List.length_set]
            exact wlen
          · intro x
            have h1 := hcount x
            have h2 := count_flatMap_set inflightOf WorkerPhase.terminated hw x
            simp [inflightOf] at h2
            dsimp only
            simp only [queuePorts, List.filterMap_cons] at h1 ⊢
            omega
          · intro hone
            obtain ⟨hws, hi⟩ := single_worker (wlen.trans hone) hw
            subst hi
            have hl := hlist hone
            rw [hws] at hl ⊢
            simp only [queuePorts, List.filterMap_cons] at hl ⊢
            simpa [inflightOf] using hl
          · dsimp only
            simp only [List.length_cons] at unf
            omega
          · dsimp only
            simp [queueStops, List.countP_cons, isStop] at stops ⊢
            omega
          · intro hp
            have hdr := drained hp
            have hd1 := hdr.1
            have hd2 := hdr.2
            simp only [queuePorts, List.filterMap_cons] at hd1
            dsimp only
            constructor
            · simp only [queuePorts]
              exact hd1
            · omega
          · intro hcm
            have hqq := (allDone hcm).1
            simp at hqq
          · intro hs
            obtain ⟨rows, hrows, hcnt⟩ := csvTr hs
            refine ⟨rows, hrows, ?_⟩
            intro row
            have hc1 := hcnt row
            have h5 := count_flatMap_set (pendingCsvOf cfg.host)
              WorkerPhase.terminated hw row
            simp [pendingCsvOf] at h5
            dsimp only
            omega
          · intro hcm
            exact sumSet hcm
        | portItem p =>
          simp only [workerStepAt, hw, hq]
          have h3 := countP_set isBusy (WorkerPhase.popped p) hw
          simp [isBusy] at h3
          have h4 := countP_set isTerminated (WorkerPhase.popped p) hw
          simp [isTerminated] at h4
          refine ⟨?_, ⟨pre, hpre, ?_, ?_⟩, ?_, ?_, pb, ?_, ?_, ?_,
            noCsv, svc, ?_⟩
          · dsimp only
            simp only [List.length_set]
            exact wlen
          · intro x
            have h1 := hcount x
            have h2 := count_flatMap_set inflightOf (WorkerPhase.popped p) hw x
            simp [inflightOf] at h2
            dsimp only
            simp only [queuePorts, List.filterMap_cons] at h1 ⊢
            simp only [List.count_cons, List.count_nil] at h1 h2
            omega
          · intro hone
            obtain ⟨hws, hi⟩ := single_worker (wlen.trans hone) hw
            subst hi
            have hl := hlist hone
            rw [hws] at hl ⊢
            simp only [queuePorts, List.filterMap_cons] at hl ⊢
            simp only [List.set_cons_zero, List.flatMap_cons,
              List.flatMap_nil, inflightOf] at hl ⊢
            simp at hl ⊢
            simp [hl]
          · dsimp only
            simp only [List.length_cons] at unf
            omega
          · dsimp only
            simp [queueStops, List.countP_cons, isStop] at stops ⊢
            omega
          · intro hp
            have hd1 := (drained hp).1
            simp only [queuePorts, List.filterMap_cons] at hd1
            simp at hd1
          · intro hcm
            have hqq := (allDone hcm).1
            simp at hqq
          · intro hs
            obtain ⟨rows, hrows, hcnt⟩ := csvTr hs
            refine ⟨rows, hrows, ?_⟩
            intro row
            have hc1 := hcnt row
            have h5 := count_flatMap_set (pendingCsvOf cfg.host)
              (WorkerPhase.popped p) hw row
            simp [pendingCsvOf] at h5
            dsimp only
            omega
          · intro hcm
            exact sumSet hcm
    | popped p =>
      simp only [workerStepAt, hw]
      have h3 := countP_set isBusy
        (WorkerPhase.printed ⟨p, (scan_port (cfg.net s.clock p)).1,
          common_ports_get p, cfg.clockTs s.clock⟩) hw
      simp [isBusy] at h3
      have h4 := countP_set isTerminated
        (WorkerPhase.printed ⟨p, (scan_port (cfg.net s.clock p)).1,
          common_ports_get p, cfg.clockTs s.clock⟩) hw
      simp [isTerminated] at h4
      refine ⟨?_, ⟨pre, hpre, ?_, ?_⟩, ?_, ?_, pb, ?_, ?_, ?_,
        noCsv, ?_, ?_⟩
      · dsimp only
        simp only [List.length_set]
        exact wlen
      · intro x
        have h1 := hcount x
        have h2 := count_flatMap_set inflightOf
          (WorkerPhase.printed ⟨p, (scan_port (cfg.net s.clock p)).1,
            common_ports_get p, cfg.clockTs s.clock⟩) hw x
        simp [inflightOf] at h2
        dsimp only
        simp only [List.map_append, List.map_cons, List.map_nil,
          List.count_append, List.count_cons, List.count_nil] at h1 h2 ⊢
        omega
      · intro hone
        obtain ⟨hws, hi⟩ := single_worker (wlen.trans hone) hw
        subst hi
        have hl := hlist hone
        rw [hws] at hl ⊢
        simp only [List.set_cons_zero, List.flatMap_cons, List.flatMap_nil,
          inflightOf, List.map_append, List.map_cons, List.map_nil] at hl ⊢
        simp at hl ⊢
        simp [hl]
      · dsimp only
        omega
      · dsimp only
        omega
      · intro hp
        have hdr := (drained hp).2
        have hb := busy_all_false hdr _ (idx_some_mem hw)
        simp [isBusy] at hb
      · intro hcm
        have hterm := (allDone hcm).2
        have := all_terminated (by rw [wlen]; exact hterm) _ (idx_some_mem hw)
        simp at this
      · intro hs
        obtain ⟨rows, hrows, hcnt⟩ := csvTr hs
        refine ⟨rows, hrows, ?_⟩
        intro row
        have hc1 := hcnt row
        have h5 := count_flatMap_set (pendingCsvOf cfg.host)
          (WorkerPhase.printed ⟨p, (scan_port (cfg.net s.clock p)).1,
            common_ports_get p, cfg.clockTs s.clock⟩) hw row
        simp [pendingCsvOf] at h5
        dsimp only
        simp only [List.map_append, List.map_cons, List.map_nil,
          List.count_append, List.count_cons, List.count_nil] at hc1 h5 ⊢
        omega
      · intro r' hr'
        dsimp only at hr'
        rcases List.mem_append.mp hr' with hold | hnew
        · exact svc r' hold
        · simp only [List.mem_singleton] at hnew
          subst hnew
          rfl
      · intro hcm
        have hterm := (allDone hcm).2
        have := all_terminated (by rw [wlen]; exact hterm) _ (idx_some_mem hw)
        simp at this
    | printed r =>
      simp only [workerStepAt, hw]
      have h3 := countP_set isBusy WorkerPhase.dispatched hw
      simp [isBusy] at h3
      have h4 := countP_set isTerminated WorkerPhase.dispatched hw
      simp [isTerminated] at h4
      refine ⟨?_, ⟨pre, hpre, ?_, ?_⟩, ?_, ?_, pb, ?_, ?_, ?_,
        ?_, svc, ?_⟩
      · dsimp only
        simp only [List.length_set]
        exact wlen
      · intro x
        have h1 := hcount x
        have h2 := count_flatMap_set inflightOf WorkerPhase.dispatched hw x
        simp [inflightOf] at h2
        dsimp only
        omega
      · intro hone
        obtain ⟨hws, hi⟩ := single_worker (wlen.trans hone) hw
        subst hi
        have hl := hlist hone
        rw [hws] at hl ⊢
        simp only [List.set_cons_zero, List.flatMap_cons, List.flatMap_nil,
          inflightOf] at hl ⊢
        exact hl
      · dsimp only
        omega
      · dsimp only
        omega
      · intro hp
        have hdr := (drained hp).2
        have hb := busy_all_false hdr _ (idx_some_mem hw)
        simp [isBusy] at hb
      · intro hcm
        have hterm := (allDone hcm).2
        have := all_terminated (by rw [wlen]; exact hterm) _ (idx_some_mem hw)
        simp at this
      · intro hs
        obtain ⟨rows, hrows, hcnt⟩ := csvTr hs
        refine ⟨rows ++ [csv_row cfg.host r], ?_, ?_⟩
        · dsimp only
          simp only [hs, if_true, csvWrites, List.filterMap_append,
            List.filterMap_cons, List.filterMap_nil] at hrows ⊢
          rw [hrows]
          rfl
        · intro row
          have hc1 := hcnt row
          have h5 := count_flatMap_set (pendingCsvOf cfg.host)
            WorkerPhase.dispatched hw row
          simp [pendingCsvOf] at h5
          dsimp only
          simp only [List.count_append, List.count_cons, List.count_nil]
            at h5 hc1 ⊢
          omega
      · intro hns
        dsimp only
        simp only [hns, if_neg Bool.false_ne_true, List.append_nil]
        exact noCsv hns
      · intro hcm
        have hterm := (allDone hcm).2
        have := all_terminated (by rw [wlen]; exact hterm) _ (idx_some_mem hw)
        simp at this
    | dispatched =>
      simp only [workerStepAt, hw]
      have h3 := countP_set isBusy WorkerPhase.idle hw
      simp [isBusy] at h3
      have h4 := countP_set isTerminated WorkerPhase.idle hw
      simp [isTerminated] at h4
      refine ⟨?_, ⟨pre, hpre, ?_, ?_⟩, ?_, ?_, pb, ?_, ?_, ?_,
        noCsv, svc, ?_⟩
      · dsimp only
        simp only [List.length_set]
        exact wlen
      · intro x
        have h1 := hcount x
        have h2 := count_flatMap_set inflightOf WorkerPhase.idle hw x
        simp [inflightOf] at h2
        dsimp only
        omega
      · intro hone
        obtain ⟨hws, hi⟩ := single_worker (wlen.trans hone) hw
        subst hi
        have hl := hlist hone
        rw [hws] at hl ⊢
        simp only [List.set_cons_zero, List.flatMap_cons, List.flatMap_nil,
          inflightOf] at hl ⊢
        exact hl
      · dsimp only
        omega
      · dsimp only
        omega
      · intro hp
        have hdr := (drained hp).2
        have hb := busy_all_false hdr _ (idx_some_mem hw)
        simp [isBusy] at hb
      · intro hcm
        have hterm := (allDone hcm).2
        have := all_terminated (by rw [wlen]; exact hterm) _ (idx_some_mem hw)
        simp at this
      · intro hs
        obtain ⟨rows, hrows, hcnt⟩ := csvTr hs
        refine ⟨rows, hrows, ?_⟩
        intro row
        have hc1 := hcnt row
        have h5 := count_flatMap_set (pendingCsvOf cfg.host)
          WorkerPhase.idle hw row
        simp [pendingCsvOf] at h5
        dsimp only
        omega
      · intro hcm
        have hterm := (allDone hcm).2
        have := all_terminated (by rw [wlen]; exact hterm) _ (idx_some_mem hw)
        simp at this


lemma inv_step (cfg : ScanConfig) (s : ScanState) (c : Choice) (h : Inv cfg s) :
    Inv cfg (step cfg s c) := by
  cases c with
  | coordC => exact inv_coordStep cfg s h
  | workerC i => exact inv_workerStepAt cfg s i h

lemma inv_foldl (cfg : ScanConfig) (sched : List Choice) (s : ScanState)
    (h : Inv cfg s) : Inv cfg (sched.foldl (step cfg) s) := by
  induction sched generalizing s with
  | nil => exact h
  | cons c cs ih => exact ih _ (inv_step cfg s c h)

/-- The invariant holds in every reachable state under every schedule. -/
lemma inv_run (cfg : ScanConfig) (sched : List Choice) :
    Inv cfg (run cfg sched) :=
  inv_foldl cfg sched (initState cfg) (inv_init cfg)

/-- Once the coordinator is past the first drain, all of the configured port
list has been pushed. -/
lemma pushed_all_of_past (cfg : ScanConfig) {c : CoordPhase} {pre : List Nat}
    (hp : pastDrainWork c = true) (hpre : pushedMatch cfg c pre) :
    pre = cfg.ports := by
  cases c with
  | enqueuing rem => simp [pastDrainWork] at hp
  | drainWork => simp [pastDrainWork] at hp
  | sendingPoison k => exact hpre
  | drainPoison => exact hpre
  | complete => exact hpre

/-- After the first drain, the console dispatch trace hits every configured
port with the right multiplicity. -/
lemma drained_counts (cfg : ScanConfig) (sched : List Choice)
    (hp : pastDrainWork (run cfg sched).coord = true) (x : Nat) :
    ((run cfg sched).results.map ProbeResult.port).count x =
      cfg.ports.count x := by
  obtain ⟨wlen, ⟨pre, hpre, hcount, hlist⟩, unf, stops, pb, drained, allDone,
    csvTr, noCsv, svc, sumSet⟩ := inv_run cfg sched
  have hdr := drained hp
  have hprev : pre = cfg.ports := pushed_all_of_past cfg hp hpre
  have hin : (run cfg sched).workers.flatMap inflightOf = [] :=
    flatMap_eq_nil_of fun w hw => inflightOf_eq_nil (busy_all_false hdr.2 w hw)
  have h1 := hcount x
  rw [hprev, hdr.1, hin] at h1
  simp at h1
  omega

/-- After the first drain the console dispatch trace is a permutation of the
configured port list. -/
lemma drained_perm (cfg : ScanConfig) (sched : List Choice)
    (hp : pastDrainWork (run cfg sched).coord = true) :
    ((run cfg sched).results.map ProbeResult.port).Perm cfg.ports :=
  List.perm_iff_count.mpr fun x => drained_counts cfg sched hp x

/-- With one worker, the console dispatch trace is the configured port list
itself, in order. -/
lemma drained_order (cfg : ScanConfig) (sched : List Choice)
    (hone : cfg.numWorkers = 1)
    (hp : pastDrainWork (run cfg sched).coord = true) :
    (run cfg sched).results.map ProbeResult.port = cfg.ports := by
  obtain ⟨wlen, ⟨pre, hpre, hcount, hlist⟩, unf, stops, pb, drained, allDone,
    csvTr, noCsv, svc, sumSet⟩ := inv_run cfg sched
  have hdr := drained hp
  have hprev : pre = cfg.ports := pushed_all_of_past cfg hp hpre
  have hin : (run cfg sched).workers.flatMap inflightOf = [] :=
    flatMap_eq_nil_of fun w hw => inflightOf_eq_nil (busy_all_false hdr.2 w hw)
  have h2 := hlist hone
  rw [hprev, hdr.1, hin] at h2
  simpa using h2.symm

/-- The two `BEq (List String)` instances in scope (elementwise `==` and the
one induced by decidable equality) count the same. -/
lemma count_beq_eq_count_deq (row : List String) (l : List (List String)) :
    l.count row = @List.count (List String) instBEqOfDecidableEq row l := by
  induction l with
  | nil => rfl
  | cons r t ih => simp [List.count_cons, ih]

/-- After the first drain, with CSV saving on, the CSV write trace is the
header followed by exactly one row per dispatched result. -/
lemma drained_csv (cfg : ScanConfig) (sched : List Choice)
    (hs : cfg.save_csv = true)
    (hp : pastDrainWork (run cfg sched).coord = true) :
    ∃ rows, csvWrites (run cfg sched).fileOps = csvHeader :: rows ∧
      rows.Perm ((run cfg sched).results.map (csv_row cfg.host)) := by
  obtain ⟨wlen, ⟨pre, hpre, hcount, hlist⟩, unf, stops, pb, drained, allDone,
    csvTr, noCsv, svc, sumSet⟩ := inv_run cfg sched
  have hdr := drained hp
  have hpend : (run cfg sched).workers.flatMap (pendingCsvOf cfg.host) = [] :=
    flatMap_eq_nil_of fun w hw =>
      pendingCsvOf_eq_nil (busy_all_false hdr.2 w hw)
  obtain ⟨rows, hrows, hcnt⟩ := csvTr hs
  refine ⟨rows, hrows, List.perm_iff_count.mpr fun row => ?_⟩
  have h1 := hcnt row
  rw [hpend] at h1
  simp only [List.count_nil, Nat.add_zero] at h1
  rw [← count_beq_eq_count_deq, ← count_beq_eq_count_deq]
  exact h1

/-- What holds of a completed run: empty queue, zero unfinished count, all
workers terminated, summary printed from the final open-port list. -/
lemma complete_state (cfg : ScanConfig) (sched : List Choice)
    (hc : (run cfg sched).coord = .complete) :
    (run cfg sched).queue = [] ∧ (run cfg sched).unfinished = 0 ∧
      (run cfg sched).workers.countP isTerminated = cfg.numWorkers ∧
      (run cfg sched).summary = some (summary_lines (run cfg sched).openPorts
        cfg.save_csv cfg.csv_name) := by
  obtain ⟨wlen, ⟨pre, hpre, hcount, hlist⟩, unf, stops, pb, drained, allDone,
    csvTr, noCsv, svc, sumSet⟩ := inv_run cfg sched
  have hdr := drained (by rw [hc]; rfl)
  have had := allDone hc
  refine ⟨had.1, ?_, had.2, sumSet hc⟩
  rw [unf, had.1]
  simp [hdr.2]

/-! ## The CSV flag does not influence the core of the scan -/

/-- The part of the state that does not involve the CSV file or the summary:
queue, counter, workers, coordinator phase, console trace, open ports,
clock. -/
structure CoreView where
  queue : List WorkItem
  unfinished : Nat
  workers : List WorkerPhase
  coord : CoordPhase
  results : List ProbeResult
  openPorts : List Nat
  clock : Nat
deriving DecidableEq

/-- Project a scan state onto its core. -/
def core (s : ScanState) : CoreView :=
  ⟨s.queue, s.unfinished, s.workers, s.coord, s.results, s.openPorts, s.clock⟩

lemma core_coordStep (cfg : ScanConfig) (b : Bool) (nm : String)
    (s₁ s₂ : ScanState) (h : core s₁ = core s₂) :
    core (coordStep { cfg with save_csv := b, csv_name := nm } s₁) =
      core (coordStep cfg s₂) := by
  have hq : s₁.queue = s₂.queue := congrArg CoreView.queue h
  have hu : s₁.unfinished = s₂.unfinished := congrArg CoreView.unfinished h
  have hw : s₁.workers = s₂.workers := congrArg CoreView.workers h
  have hc : s₁.coord = s₂.coord := congrArg CoreView.coord h
  have hr : s₁.results = s₂.results := congrArg CoreView.results h
  have ho : s₁.openPorts = s₂.openPorts := congrArg CoreView.openPorts h
  have hk : s₁.clock = s₂.clock := congrArg CoreView.clock h
  cases hco : s₂.coord with
  | enqueuing rem =>
    cases rem with
    | nil => simp [coordStep, hco, hc.trans hco, core, hq, hu, hw, hr, ho, hk]
    | cons p rest =>
      simp [coordStep, hco, hc.trans hco, core, hq, hu, hw, hr, ho, hk]
  | drainWork =>
    by_cases hu0 : s₂.unfinished = 0
    · simp [coordStep, hco, hc.trans hco, core, hq, hu, hw, hr, ho, hk, hu0]
    · simp [coordStep, hco, hc.trans hco, core, hq, hu, hw, hr, ho, hk, hu0]
  | sendingPoison k =>
    cases k with
    | zero => simp [coordStep, hco, hc.trans hco, core, hq, hu, hw, hr, ho, hk]
    | succ k' =>
      simp [coordStep, hco, hc.trans hco, core, hq, hu, hw, hr, ho, hk]
  | drainPoison =>
    by_cases hu0 : s₂.unfinished = 0
    · simp [coordStep, hco, hc.trans hco, core, hq, hu, hw, hr, ho, hk, hu0]
    · simp [coordStep, hco, hc.trans hco, core, hq, hu, hw, hr, ho, hk, hu0]
  | complete =>
    simp [coordStep, hco, hc.trans hco, core, hq, hu, hw, hr, ho, hk]

lemma core_workerStepAt (cfg : ScanConfig) (b : Bool) (nm : String)
    (s₁ s₂ : ScanState) (i : Nat) (h : core s₁ = core s₂) :
    core (workerStepAt { cfg with save_csv := b, csv_name := nm } s₁ i) =
      core (workerStepAt cfg s₂ i) := by
  have hq : s₁.queue = s₂.queue := congrArg CoreView.queue h
  have hu : s₁.unfinished = s₂.unfinished := congrArg CoreView.unfinished h
  have hw : s₁.workers = s₂.workers := congrArg CoreView.workers h
  have hc : s₁.coord = s₂.coord := congrArg CoreView.coord h
  have hr : s₁.results = s₂.results := congrArg CoreView.results h
  have ho : s₁.openPorts = s₂.openPorts := congrArg CoreView.openPorts h
  have hk : s₁.clock = s₂.clock := congrArg CoreView.clock h
  cases hwp : s₂.workers[i]? with
  | none => simp [workerStepAt, hw, hwp, core, hq, hu, hc, hr, ho, hk]
  | some ph =>
    cases ph with
    | idle =>
      cases hqq : s₂.queue with
      | nil => simp [workerStepAt, hw, hwp, hq, hqq, core, hu, hc, hr, ho, hk]
      | cons it rest =>
        cases it with
        | stopSignal =>
          simp [workerStepAt, hw, hwp, hq, hqq, core, hu, hc, hr, ho, hk]
        | portItem p =>
          simp [workerStepAt, hw, hwp, hq, hqq, core, hu, hc, hr, ho, hk]
    | popped p =>
      simp [workerStepAt, hw, hwp, core, hq, hu, hc, hr, ho, hk]
    | printed r =>
      simp [workerStepAt, hw, hwp, core, hq, hu, hc, hr, ho, hk]
    | dispatched =>
      simp [workerStepAt, hw, hwp, core, hq, hu, hc, hr, ho, hk]
    | terminated =>
      simp [workerStepAt, hw, hwp, core, hq, hu, hc, hr, ho, hk]

lemma core_foldl (cfg : ScanConfig) (b : Bool) (nm : String) :
    ∀ (sched : List Choice) (s₁ s₂ : ScanState), core s₁ = core s₂ →
      core (sched.foldl (step { cfg with save_csv := b, csv_name := nm }) s₁) =
        core (sched.foldl (step cfg) s₂)
  | [], _, _, h => h
  | c :: cs, s₁, s₂, h => by
    refine core_foldl cfg b nm cs _ _ ?_
    cases c with
    | coordC => exact core_coordStep cfg b nm s₁ s₂ h
    | workerC i => exact core_workerStepAt cfg b nm s₁ s₂ i h

/-- Toggling CSV saving (and the CSV file name) leaves the entire core of the
run — queue evolution, worker phases, console trace, open ports — unchanged,
under every schedule. -/
lemma core_run (cfg : ScanConfig) (b : Bool) (nm : String)
    (sched : List Choice) :
    core (run { cfg with save_csv := b, csv_name := nm } sched) =
      core (run cfg sched) := by
  unfold run
  exact core_foldl cfg b nm sched _ _ rfl


/-! ## Facts about range parsing -/

/-- A range accepted by `parse_range` satisfies the source's validity check. -/
lemma parse_range_sound {s : String} {st en : Nat}
    (h : parse_range s = some (st, en)) :
    1 ≤ st ∧ en ≤ 65535 ∧ st ≤ en := by
  unfold parse_range at h
  split at h
  · split at h
    · split at h
      · simp at h
      · rename_i hcond
        simp only [Option.some.injEq, Prod.mk.injEq] at h
        obtain ⟨h1, h2⟩ := h
        subst h1
        subst h2
        push_neg at hcond
        omega
    · simp at h
  · simp at h

/-! ## A concrete demonstration scan, used by the witnesses -/

/-- A demonstration network oracle: port 22 accepts, everything else is
refused. -/
def demoNet : Nat → Nat → ConnectExResult := fun _ p =>
  if p = 22 then .code 0 else .code 111

/-- A demonstration clock. -/
def demoTs : Nat → Timestamp := fun n => ⟨2026, 10, 12, 9, 0, n, 999999⟩

/-- A demonstration configuration: one worker, two ports, CSV saving on. -/
def demoCfg : ScanConfig :=
  { host := "127.0.0.1", ports := [22, 23], numWorkers := 1,
    save_csv := true, csv_name := "scan_results.csv",
    net := demoNet, clockTs := demoTs }

/-- A schedule under which the demonstration scan runs to completion. -/
def demoSched : List Choice :=
  [.coordC, .coordC, .coordC,
   .workerC 0, .workerC 0, .workerC 0, .workerC 0,
   .workerC 0, .workerC 0, .workerC 0, .workerC 0,
   .coordC, .coordC, .coordC, .workerC 0, .coordC]

/-! ## The claims -/

/-- C1: for every enqueued port the scan produces exactly one `ProbeResult`
(one console dispatch) and, when CSV saving is on, exactly one CSV row per
result — nothing lost, nothing duplicated per sink — once the coordinator is
past the first drain, under every schedule and at every worker count. -/
theorem c1_exactly_once_per_sink (cfg : ScanConfig) (sched : List Choice)
    (hp : pastDrainWork (run cfg sched).coord = true) :
    ((run cfg sched).results.map ProbeResult.port).Perm cfg.ports ∧
      (cfg.save_csv = true →
        ∃ rows, csvWrites (run cfg sched).fileOps = csvHeader :: rows ∧
          rows.Perm ((run cfg sched).results.map (csv_row cfg.host))) :=
  ⟨drained_perm cfg sched hp, fun hs => drained_csv cfg sched hs hp⟩

theorem c1_witness :
    ((run demoCfg demoSched).results.map ProbeResult.port).Perm
        demoCfg.ports ∧
      (demoCfg.save_csv = true →
        ∃ rows, csvWrites (run demoCfg demoSched).fileOps = csvHeader :: rows ∧
          rows.Perm ((run demoCfg demoSched).results.map
            (csv_row demoCfg.host))) :=
  c1_exactly_once_per_sink demoCfg demoSched (by decide)

/-- C2: shutdown is a two-phase drain.  Past the first drain every real work
item has been popped, fully processed and marked done (the console trace
covers the port list, no port is queued, no worker is busy); a drain wait
(`q.join()`) only ever returns with the unfinished count at zero, and a zero
unfinished count means nothing queued and nobody mid-processing; the poison
values pushed are one per worker, each either still queued or acknowledged by
a now-terminated worker; and at completion the queue is empty, the count is
zero and every worker has acknowledged its poison value and terminated. -/
theorem c2_two_phase_drain :
    (∀ (cfg : ScanConfig) (sched : List Choice),
      pastDrainWork (run cfg sched).coord = true →
      ((run cfg sched).results.map ProbeResult.port).Perm cfg.ports ∧
        queuePorts (run cfg sched).queue = [] ∧
        (run cfg sched).workers.countP isBusy = 0) ∧
    (∀ (cfg : ScanConfig) (sched : List Choice),
      (run cfg sched).unfinished = 0 →
      (run cfg sched).queue = [] ∧
        (run cfg sched).workers.countP isBusy = 0) ∧
    (∀ (cfg : ScanConfig) (s : ScanState), s.coord = .drainWork →
      (coordStep cfg s).coord ≠ .drainWork → s.unfinished = 0) ∧
    (∀ (cfg : ScanConfig) (s : ScanState), s.coord = .drainPoison →
      (coordStep cfg s).coord ≠ .drainPoison → s.unfinished = 0) ∧
    (∀ (cfg : ScanConfig) (sched : List Choice),
      (run cfg sched).coord = .drainPoison →
      queueStops (run cfg sched).queue +
        (run cfg sched).workers.countP isTerminated = cfg.numWorkers) ∧
    (∀ (cfg : ScanConfig) (sched : List Choice),
      (run cfg sched).coord = .complete →
      (run cfg sched).queue = [] ∧ (run cfg sched).unfinished = 0 ∧
        (run cfg sched).workers.countP isTerminated = cfg.numWorkers) := by
  refine ⟨?_, ?_, ?_, ?_, ?_, ?_⟩
  · intro cfg sched hp
    obtain ⟨wlen, acct, unf, stops, pb, drained, allDone, csvTr, noCsv, svc,
      sumSet⟩ := inv_run cfg sched
    exact ⟨drained_perm cfg sched hp, drained hp⟩
  · intro cfg sched hu
    obtain ⟨wlen, acct, unf, stops, pb, drained, allDone, csvTr, noCsv, svc,
      sumSet⟩ := inv_run cfg sched
    rw [unf] at hu
    exact ⟨List.length_eq_zero.mp (by omega), by omega⟩
  · intro cfg s hs hne
    by_cases hu : s.unfinished = 0
    · exact hu
    · exact absurd (by simp [coordStep, hs, hu]) hne
  · intro cfg s hs hne
    by_cases hu : s.unfinished = 0
    · exact hu
    · exact absurd (by simp [coordStep, hs, hu]) hne
  · intro cfg sched hdp
    obtain ⟨wlen, acct, unf, stops, pb, drained, allDone, csvTr, noCsv, svc,
      sumSet⟩ := inv_run cfg sched
    rw [hdp] at stops
    simp only [stopsPushed] at stops
    omega
  · intro cfg sched hc
    have h := complete_state cfg sched hc
    exact ⟨h.1, h.2.1, h.2.2.1⟩

theorem c2_witness :
    ((run demoCfg demoSched).queue = [] ∧
      (run demoCfg demoSched).unfinished = 0 ∧
      (run demoCfg demoSched).workers.countP isTerminated =
        demoCfg.numWorkers) ∧
    ((run demoCfg demoSched).results.map ProbeResult.port).Perm
      demoCfg.ports :=
  ⟨c2_two_phase_drain.2.2.2.2.2 demoCfg demoSched (by decide),
   (c2_two_phase_drain.1 demoCfg demoSched (by decide)).1⟩

/-- C3: `scan_port` always returns a boolean to its caller: a raised
exception from the connection attempt is caught and normalized to `false`,
any nonzero error code (refused, timed out, unreachable) yields `false`, and
the result is `true` exactly when `connect_ex` reports success (code 0). -/
theorem c3_probe_normalizes :
    (∀ oc : ProbeOutcome,
      (scan_port (connect_ex_of oc)).1 = decide (oc = .success)) ∧
    (∀ r : ConnectExResult, connect_body r = Except.error () →
      scan_port r = (false, true)) ∧
    (∀ e : Nat, e ≠ 0 → scan_port (.code e) = (false, true)) ∧
    (∀ r : ConnectExResult, (scan_port r).1 = true ↔ r = .code 0) := by
  refine ⟨?_, ?_, ?_, ?_⟩
  · intro oc
    cases oc <;> rfl
  · intro r hr
    cases r with
    | code e => simp [connect_body] at hr
    | raised => rfl
  · intro e he
    simp [scan_port, connect_body, he]
  · intro r
    cases r with
    | code e => simp [scan_port, connect_body]
    | raised => simp [scan_port, connect_body]

theorem c3_witness :
    (scan_port (connect_ex_of ProbeOutcome.dnsFailure)).1 =
        decide (ProbeOutcome.dnsFailure = ProbeOutcome.success) ∧
      scan_port (ConnectExResult.raised) = (false, true) ∧
      scan_port (.code 111) = (false, true) :=
  ⟨c3_probe_normalizes.1 .dnsFailure,
   c3_probe_normalizes.2.1 .raised rfl,
   c3_probe_normalizes.2.2.1 111 (by decide)⟩

/-- C4 counterexample: the out-of-range range input "0-80" (start below 1)
is not rejected with any fatal error: `main` falls back to the 30-entry
sorted common-port list and a full scan of those 30 ports occurs — the claim
demands rejection before any worker starts and zero results. -/
theorem c4_counterexample :
    parse_range "0-80" = none ∧
    ports_for_range "0-80" = sorted_common_ports ∧
    ports_for_range "0-80" ≠ [] ∧
    (ports_for_range "0-80").length = 30 := by
  refine ⟨?_, ?_, ?_, ?_⟩ <;> decide

/-- C4 amended: a malformed or out-of-range port range is not fatal: the
code prints an invalid-range message and substitutes the sorted common-port
list, so a scan of those ports proceeds; the port list handed to the scan is
never empty; and a range is accepted only when `1 ≤ start ≤ end ≤ 65535`, in
which case the scanned ports are exactly that range (no clamping of accepted
values, every scanned port in bounds). -/
theorem c4_amended :
    (∀ s : String, ports_for_range s ≠ []) ∧
    (∀ s : String, parse_range s = none →
      ports_for_range s = sorted_common_ports) ∧
    (∀ (s : String) (st en : Nat), parse_range s = some (st, en) →
      1 ≤ st ∧ en ≤ 65535 ∧ st ≤ en ∧
        ports_for_range s = range_ports st en ∧
        ∀ p ∈ ports_for_range s, 1 ≤ p ∧ p ≤ 65535) := by
  refine ⟨?_, ?_, ?_⟩
  · intro s
    cases hpr : parse_range s with
    | none =>
      simp only [ports_for_range, hpr]
      decide
    | some pair =>
      obtain ⟨st, en⟩ := pair
      have hb := parse_range_sound hpr
      simp only [ports_for_range, hpr]
      have hlen : (range_ports st en).length = en + 1 - st := by
        simp [range_ports]
      intro hnil
      rw [hnil] at hlen
      simp at hlen
      omega
  · intro s hpr
    simp [ports_for_range, hpr]
  · intro s st en hpr
    have hb := parse_range_sound hpr
    refine ⟨hb.1, hb.2.1, hb.2.2, by simp [ports_for_range, hpr], ?_⟩
    intro p hp
    simp only [ports_for_range, hpr, range_ports] at hp
    rw [List.mem_range'_1] at hp
    omega

theorem c4_witness :
    ports_for_range "abc" ≠ [] ∧
    ports_for_range "abc" = sorted_common_ports ∧
    ports_for_range "2-4" = range_ports 2 4 :=
  ⟨c4_amended.1 "abc", c4_amended.2.1 "abc" (by decide),
   (c4_amended.2.2 "2-4" 2 4 (by decide)).2.2.2.1⟩

/-- C5 counterexample: with zero open ports the post-drain summary is the
fixed three lines below — it contains neither the (empty) sorted open-port
set (the line that would carry it is absent) nor any total of ports scanned
(the summary is not even a function of that total). -/
theorem c5_counterexample :
    summary_lines [] true "scan_results.csv" =
      ["\nScan complete.", "No open ports found.",
       "Saved results to: scan_results.csv"] ∧
    ("Open ports: " ++ py_list_str (sorted_set [])) ∉
      summary_lines [] true "scan_results.csv" ∧
    ∀ line ∈ summary_lines [] true "scan_results.csv",
      line ≠ "Open ports: []" := by
  refine ⟨?_, ?_, ?_⟩ <;> decide

/-- C5 amended: after the drain a final summary is always printed, even with
zero open ports; it always starts with the scan-complete line; when at least
one port is open it contains the sorted deduplicated open-port list, and when
none is open it contains the fixed line `No open ports found.` instead of an
empty set; the total number of ports scanned appears only in the pre-scan
banner, not in the final summary. -/
theorem c5_amended :
    (∀ (cfg : ScanConfig) (sched : List Choice),
      (run cfg sched).coord = .complete →
      (run cfg sched).summary = some (summary_lines
        (run cfg sched).openPorts cfg.save_csv cfg.csv_name)) ∧
    (∀ (op : List Nat) (sc : Bool) (nm : String),
      (summary_lines op sc nm).head? = some "\nScan complete.") ∧
    (∀ (op : List Nat) (sc : Bool) (nm : String), op ≠ [] →
      ("Open ports: " ++ py_list_str (sorted_set op)) ∈
        summary_lines op sc nm) ∧
    (∀ (sc : Bool) (nm : String),
      "No open ports found." ∈ summary_lines [] sc nm) ∧
    (∀ (host : String) (n th : Nat), ∃ a b : String,
      pre_scan_banner host n th = a ++ toString n ++ b) := by
  refine ⟨?_, ?_, ?_, ?_, ?_⟩
  · intro cfg sched hc
    exact (complete_state cfg sched hc).2.2.2
  · intro op sc nm
    simp [summary_lines, open_ports_summary]
  · intro op sc nm hop
    simp [summary_lines, open_ports_summary, hop]
  · intro sc nm
    simp [summary_lines, open_ports_summary]
  · intro host n th
    refine ⟨"\nScanning " ++ host ++ " ",
      " ports with " ++ toString th ++ " threads (timeout 0.5s)\n", ?_⟩
    simp [pre_scan_banner, String.append_assoc]

theorem c5_witness :
    (run demoCfg demoSched).summary = some (summary_lines
      (run demoCfg demoSched).openPorts demoCfg.save_csv demoCfg.csv_name) ∧
    ("Open ports: " ++ py_list_str (sorted_set [22])) ∈
      summary_lines [22] true "x.csv" :=
  ⟨c5_amended.1 demoCfg demoSched (by decide),
   c5_amended.2.2.1 [22] true "x.csv" (by decide)⟩

/-- C6: when CSV saving is on the CSV trace begins with the exact header row
`timestamp,host,port,service,status`; after the drain it holds exactly one
row per result (in the arrival order at the CSV sink, which is the order of
the write trace); every row is
`[timestamp, host, port, service, status]` with status literally `OPEN` when
the probe returned true and `CLOSED` otherwise; and the timestamp field is
the ISO-8601 second-truncated rendering, independent of microseconds. -/
theorem c6_csv_format :
    (∀ (cfg : ScanConfig) (sched : List Choice), cfg.save_csv = true →
      ∃ rows, csvWrites (run cfg sched).fileOps =
        ["timestamp", "host", "port", "service", "status"] :: rows) ∧
    (∀ (cfg : ScanConfig) (sched : List Choice), cfg.save_csv = true →
      pastDrainWork (run cfg sched).coord = true →
      ∃ rows, csvWrites (run cfg sched).fileOps = csvHeader :: rows ∧
        rows.Perm ((run cfg sched).results.map (csv_row cfg.host))) ∧
    (∀ (host : String) (r : ProbeResult),
      csv_row host r = [isoformat_seconds r.ts, host, toString r.port,
        r.service, if r.isOpen then "OPEN" else "CLOSED"]) ∧
    (∀ t u : Timestamp, t.year = u.year → t.month = u.month → t.day = u.day →
      t.hour = u.hour → t.minute = u.minute → t.second = u.second →
      isoformat_seconds t = isoformat_seconds u) := by
  refine ⟨?_, ?_, ?_, ?_⟩
  · intro cfg sched hs
    obtain ⟨rows, hrows, _⟩ := (inv_run cfg sched).csvTr hs
    exact ⟨rows, hrows⟩
  · intro cfg sched hs hp
    exact drained_csv cfg sched hs hp
  · intro host r
    rfl
  · intro t u h1 h2 h3 h4 h5 h6
    simp [isoformat_seconds, h1, h2, h3, h4, h5, h6]

theorem c6_witness :
    (∃ rows, csvWrites (run demoCfg demoSched).fileOps =
      ["timestamp", "host", "port", "service", "status"] :: rows) ∧
    isoformat_seconds ⟨2026, 1, 2, 3, 4, 5, 6⟩ =
      isoformat_seconds ⟨2026, 1, 2, 3, 4, 5, 999999⟩ :=
  ⟨c6_csv_format.1 demoCfg demoSched rfl,
   c6_csv_format.2.2.2 _ _ rfl rfl rfl rfl rfl rfl⟩

/-- C7: the socket created by `scan_port` is closed on every exit path — on
a successful connection, on every error code (refused, timed out,
unreachable) and on a raised exception. -/
theorem c7_socket_closed (r : ConnectExResult) : (scan_port r).2 = true := by
  cases r with
  | code e => rfl
  | raised => rfl

/-- C8: with one worker all ports are processed, strictly serialized, and
the emitted per-port results match the enqueue order exactly — the console
trace equals the configured port list as a list, not merely as a multiset. -/
theorem c8_single_worker_order (cfg : ScanConfig) (sched : List Choice)
    (hone : cfg.numWorkers = 1)
    (hp : pastDrainWork (run cfg sched).coord = true) :
    (run cfg sched).results.map ProbeResult.port = cfg.ports :=
  drained_order cfg sched hone hp

theorem c8_witness :
    (run demoCfg demoSched).results.map ProbeResult.port = demoCfg.ports :=
  c8_single_worker_order demoCfg demoSched rfl (by decide)

/-- C9: the service field of every emitted result is
`COMMON_PORTS.get(port, "")` — the table's name when the port is a key, and
the empty string otherwise — and a port without a known service name is
neither dropped nor failed: past the drain there is one result per configured
port. -/
theorem c9_service_lookup :
    (∀ (p : Nat) (name : String), COMMON_PORTS.lookup p = some name →
      common_ports_get p = name) ∧
    (∀ p : Nat, COMMON_PORTS.lookup p = none → common_ports_get p = "") ∧
    (∀ (cfg : ScanConfig) (sched : List Choice),
      ∀ r ∈ (run cfg sched).results, r.service = common_ports_get r.port) ∧
    (∀ (cfg : ScanConfig) (sched : List Choice),
      pastDrainWork (run cfg sched).coord = true →
      (run cfg sched).results.length = cfg.ports.length) := by
  refine ⟨?_, ?_, ?_, ?_⟩
  · intro p name hl
    simp [common_ports_get, hl]
  · intro p hl
    simp [common_ports_get, hl]
  · intro cfg sched r hr
    exact (inv_run cfg sched).svc r hr
  · intro cfg sched hp
    have h := (drained_perm cfg sched hp).length_eq
    simpa using h

theorem c9_witness :
    common_ports_get 22 = "SSH" ∧ common_ports_get 4 = "" ∧
      (run demoCfg demoSched).results.length = demoCfg.ports.length :=
  ⟨c9_service_lookup.1 22 "SSH" (by decide),
   c9_service_lookup.2.1 4 (by decide),
   c9_service_lookup.2.2.2 demoCfg demoSched (by decide)⟩

/-- C10: with CSV saving disabled the scan performs no file operation at all
— no open, no write, no close — while the console dispatch trace, the
open-port list and the open-port part of the final summary are identical,
step for step under the same schedule, to a run with CSV saving enabled on
the same probe outcomes. -/
theorem c10_no_file_ops (cfg : ScanConfig) (nm1 nm2 : String)
    (sched : List Choice) :
    (run { cfg with save_csv := false, csv_name := nm1 } sched).fileOps
        = [] ∧
    (run { cfg with save_csv := false, csv_name := nm1 } sched).results =
      (run { cfg with save_csv := true, csv_name := nm2 } sched).results ∧
    (run { cfg with save_csv := false, csv_name := nm1 } sched).openPorts =
      (run { cfg with save_csv := true, csv_name := nm2 } sched).openPorts ∧
    open_ports_summary
        (run { cfg with save_csv := false, csv_name := nm1 } sched).openPorts =
      open_ports_summary
        (run { cfg with save_csv := true, csv_name := nm2 } sched).openPorts
    := by
  have h1 := core_run cfg false nm1 sched
  have h2 := core_run cfg true nm2 sched
  have h3 := h1.trans h2.symm
  have hr : (run { cfg with save_csv := false, csv_name := nm1 } sched).results
      = (run { cfg with save_csv := true, csv_name := nm2 } sched).results :=
    congrArg CoreView.results h3
  have hop : (run { cfg with save_csv := false, csv_name := nm1 }
        sched).openPorts
      = (run { cfg with save_csv := true, csv_name := nm2 } sched).openPorts :=
    congrArg CoreView.openPorts h3
  exact ⟨(inv_run _ sched).noCsv rfl, hr, hop, by rw [hop]⟩

end Scanner
